import Mathlib

/-!
Shallow embedding of StarRocks' runtime-profile instrumentation core
(`be/src/util/runtime_profile.h`): counters, watermark counters, scoped
measurement helpers, the profile-node tree, and the tree algorithms
(incremental wire update, isomorphic merge, time attribution).

64-bit machine integers are embedded as `Int` (the claims under study do not
hinge on wrap-around behaviour); atomic read-modify-write operations are
embedded as indivisible state transitions, and an arbitrary interleaving of
such operations is a list of the individual transitions in the order the
memory cell observed them.

Parts of the repository present only as declarations in the header (the
bodies live in `runtime_profile.cpp`, which is not part of the source set)
are modelled from the specification; each such definition is marked
`Modelled from the spec:` in its doc comment.
-/

namespace StarRocks

/-- `TUnit::type` from `gen_cpp`: the unit kinds referenced by the header. -/
inductive TUnit where
  | UNIT
  | BYTES
  | CPU_TICKS
  | TIME_NS
  | TIME_MS
  | TIME_S
  deriving DecidableEq, Repr

/-- `TCounterAggregateType::type`. -/
inductive TCounterAggregateType where
  | SUM
  | AVG
  | SUM_AVG
  | AVG_SUM
  deriving DecidableEq, Repr

/-- `TCounterMergeType::type`. -/
inductive TCounterMergeType where
  | MERGE_ALL
  | SKIP_ALL
  | SKIP_FIRST_MERGE
  deriving DecidableEq, Repr

/-- `TCounterMinMaxType::type`. -/
inductive TCounterMinMaxType where
  | MIN_MAX_ALL
  | SKIP_ALL
  deriving DecidableEq, Repr

/-- `TCounterStrategy` record carried by every counter. -/
structure TCounterStrategy where
  aggregate_type : TCounterAggregateType
  merge_type : TCounterMergeType
  display_threshold : Int
  min_max_type : TCounterMinMaxType
  deriving DecidableEq, Repr

/-- `RuntimeProfile::is_time_type` (runtime_profile.h:687-690). -/
def is_time_type (t : TUnit) : Bool :=
  t = TUnit.CPU_TICKS || t = TUnit.TIME_NS || t = TUnit.TIME_MS || t = TUnit.TIME_S

namespace Counter

/-- `Counter::create_strategy(aggregate_type, merge_type, display_threshold,
min_max_type)` (runtime_profile.h:139-149). -/
def create_strategy_agg (aggregate_type : TCounterAggregateType)
    (merge_type : TCounterMergeType := TCounterMergeType.MERGE_ALL)
    (display_threshold : Int := 0)
    (min_max_type : TCounterMinMaxType := TCounterMinMaxType.MIN_MAX_ALL) :
    TCounterStrategy :=
  ⟨aggregate_type, merge_type, display_threshold, min_max_type⟩

/-- `Counter::create_strategy(TUnit::type, ...)` (runtime_profile.h:151-157):
time-typed counters default to AVG aggregation, all others to SUM. -/
def create_strategy (type : TUnit)
    (merge_type : TCounterMergeType := TCounterMergeType.MERGE_ALL)
    (display_threshold : Int := 0)
    (min_max_type : TCounterMinMaxType := TCounterMinMaxType.MIN_MAX_ALL) :
    TCounterStrategy :=
  let aggregate_type :=
    if is_time_type type then TCounterAggregateType.AVG else TCounterAggregateType.SUM
  create_strategy_agg aggregate_type merge_type display_threshold min_max_type

end Counter

/-- The state of a `RuntimeProfile::Counter` (runtime_profile.h:137-224):
atomic `_value` cell plus immutable type and strategy, and the optional
advisory min/max. -/
structure Counter where
  _value : Int
  _type : TUnit
  _strategy : TCounterStrategy
  _min_value : Option Int := none
  _max_value : Option Int := none
  deriving DecidableEq, Repr

namespace Counter

/-- Two-argument constructor `Counter(TUnit::type type, int64_t value = 0)`
(runtime_profile.h:159-160). Its initializer list is
`_value(0), _type(type), _strategy(create_strategy(type))`: the `value`
argument does not appear in it. -/
def mk2 (type : TUnit) (_value : Int := 0) : Counter :=
  { _value := 0, _type := type, _strategy := create_strategy type }

/-- Three-argument constructor
`Counter(TUnit::type type, const TCounterStrategy& strategy, int64_t value = 0)`
(runtime_profile.h:161-162), initializer list
`_value(value), _type(type), _strategy(strategy)`. -/
def mk3 (type : TUnit) (strategy : TCounterStrategy) (value : Int := 0) : Counter :=
  { _value := value, _type := type, _strategy := strategy }

/-- `Counter::update(delta)` (runtime_profile.h:166): one atomic
`fetch_add`, embedded as an indivisible transition of the value cell. -/
def update (c : Counter) (delta : Int) : Counter :=
  { c with _value := c._value + delta }

/-- `Counter::set(int64_t)` (runtime_profile.h:177). -/
def set (c : Counter) (value : Int) : Counter :=
  { c with _value := value }

/-- `Counter::value()` (runtime_profile.h:181). -/
def value (c : Counter) : Int := c._value

/-- `Counter::is_sum()` (runtime_profile.h:194-197). -/
def is_sum (c : Counter) : Bool :=
  c._strategy.aggregate_type = TCounterAggregateType.SUM ||
  c._strategy.aggregate_type = TCounterAggregateType.SUM_AVG

/-- `Counter::is_avg()` (runtime_profile.h:198-201). -/
def is_avg (c : Counter) : Bool :=
  c._strategy.aggregate_type = TCounterAggregateType.AVG ||
  c._strategy.aggregate_type = TCounterAggregateType.AVG_SUM

/-- `Counter::skip_merge()` (runtime_profile.h:203-206). -/
def skip_merge (c : Counter) : Bool :=
  c._strategy.merge_type = TCounterMergeType.SKIP_ALL ||
  c._strategy.merge_type = TCounterMergeType.SKIP_FIRST_MERGE

/-- `Counter::skip_min_max()` (runtime_profile.h:208). -/
def skip_min_max (c : Counter) : Bool :=
  c._strategy.min_max_type = TCounterMinMaxType.SKIP_ALL

/-- `Counter::should_display()` (runtime_profile.h:211-214). -/
def should_display (c : Counter) : Bool :=
  c._strategy.display_threshold = 0 || c._value > c._strategy.display_threshold

end Counter

/-- The value cell of a counter after a sequence of `update(delta)` calls:
each call is one atomic `fetch_add` (runtime_profile.h:166), so an execution,
however many threads produced it, is the list of deltas in the order the
atomic cell applied them. -/
def applyUpdates (init : Int) (deltas : List Int) : Int :=
  deltas.foldl (fun v d => v + d) init

/-- `WaterMarkCounter<is_high>` (runtime_profile.h:235-301): `_value` of the
base class holds the extreme (high or low watermark) and `current_value_`
holds the live value. -/
structure WaterMarkCounter where
  _value : Int
  current_value_ : Int
  deriving DecidableEq, Repr

namespace WaterMarkCounter

/-- `WaterMarkCounter::MAX_INT64` (runtime_profile.h:300). -/
def MAX_INT64 : Int := 9223372036854775807

/-- `WaterMarkCounter::_set_init_value` (runtime_profile.h:271-279): a
high-watermark counter stores 0 into both cells, a low-watermark counter
stores `MAX_INT64` into both. Both constructors (runtime_profile.h:238-242)
run the base `Counter` constructor and then call this, so the freshly
constructed counter's cells hold exactly these values. -/
def _set_init_value (is_high : Bool) : WaterMarkCounter :=
  if is_high then { _value := 0, current_value_ := 0 }
  else { _value := MAX_INT64, current_value_ := MAX_INT64 }

/-- `WaterMarkCounter::Update(v)` (runtime_profile.h:283-295): raise (for
high) or lower (for low) the extreme `_value` to `v`; the compare-exchange
retry loop makes the whole operation one atomic transition. -/
def Update (is_high : Bool) (w : WaterMarkCounter) (v : Int) : WaterMarkCounter :=
  { w with _value := if is_high then max w._value v else min w._value v }

/-- `WaterMarkCounter::add(delta)` (runtime_profile.h:244-247). -/
def add (is_high : Bool) (w : WaterMarkCounter) (delta : Int) : WaterMarkCounter :=
  let new_val := w.current_value_ + delta
  Update is_high { w with current_value_ := new_val } new_val

/-- `WaterMarkCounter::try_add(delta, max)` (runtime_profile.h:251-261):
compute `new_val = old_val + delta`; if `new_val > max` return `false`
without touching anything, otherwise commit `new_val` to the current value
(the compare-exchange succeeds at once in a single-threaded execution) and
fold it into the extreme via `Update`, returning `true`. -/
def try_add (is_high : Bool) (w : WaterMarkCounter) (delta mx : Int) :
    Bool × WaterMarkCounter :=
  let new_val := w.current_value_ + delta
  if new_val > mx then (false, w)
  else (true, Update is_high { w with current_value_ := new_val } new_val)

/-- `WaterMarkCounter::current_value()` (runtime_profile.h:268). -/
def current_value (w : WaterMarkCounter) : Int := w.current_value_

/-- `WaterMarkCounter::value()` is the inherited `Counter::value()`
(runtime_profile.h:181) reading the base `_value` cell, which for a
watermark counter holds the extreme. -/
def value (w : WaterMarkCounter) : Int := w._value

end WaterMarkCounter

/-- `ScopedTimer<T>` destruction (runtime_profile.h:749-761): the destructor
stops the stopwatch and calls `UpdateCounter()`, which adds the elapsed time
to the counter unless the counter pointer is null or `is_cancelled()` holds;
`is_cancelled()` is `_is_cancelled != nullptr && *_is_cancelled`. The
counter is embedded by its value cell (`Option Int`, `none` for a null
pointer) and the cancellation flag pointer by `Option Bool` (`none` for
null, `some b` for a flag reading `b` at exit). -/
def ScopedTimer.is_cancelled (is_cancelled_ptr : Option Bool) : Bool :=
  match is_cancelled_ptr with
  | none => false
  | some b => b

/-- `ScopedTimer<T>::~ScopedTimer` / `UpdateCounter` (runtime_profile.h:751-761):
the state of the counter after the scope exits, given the elapsed time
measured by the stopwatch and the cancellation flag observed at exit. -/
def ScopedTimer.exit (counter : Option Int) (is_cancelled_ptr : Option Bool)
    (elapsed : Int) : Option Int :=
  match counter with
  | none => none
  | some v => if ScopedTimer.is_cancelled is_cancelled_ptr then some v else some (v + elapsed)

/-- `RuntimeProfile::ROOT_COUNTER`: the empty-string sentinel parent name for
all top-level counters (runtime_profile.h:578-579, 613-614). -/
def ROOT_COUNTER : String := ""

/-- `RuntimeProfile::MERGED_INFO_PREFIX_MIN` (runtime_profile.h:134). -/
def MERGED_INFO_PREFIX_MIN : String := "__MIN_OF_"

/-- `RuntimeProfile::MERGED_INFO_PREFIX_MAX` (runtime_profile.h:135). -/
def MERGED_INFO_PREFIX_MAX : String := "__MAX_OF_"

/-- The state of a `RuntimeProfile` node (runtime_profile.h:132-693):
`_name`, `_version` (initially 0, runtime_profile.h:655), the counter map
(counter name ↦ counter and parent counter name, runtime_profile.h:607-610,
kept as an ordered association list), the child-counter adjacency map
(parent counter name ↦ child counter names, runtime_profile.h:612-615), the
info strings with their values (runtime_profile.h:632-637; the cross-instance
min/max published by the isomorphic merge are modelled by their numeric
payload), and the ordered child list with per-child indent flags
(runtime_profile.h:623-629; the name-keyed `_child_map` holds the same nodes
and is embedded as lookup-by-name in the ordered list). -/
structure RuntimeProfile where
  _name : String
  _version : Int := 0
  counter_map : List (String × Counter × String) := []
  child_counter_map : List (String × List String) := []
  info_strings : List (String × Int) := []
  children : List (RuntimeProfile × Bool) := []

namespace RuntimeProfile

/-- Lookup in the counter map (`_counter_map.find(name)`). -/
def lookupCounter (m : List (String × Counter × String)) (name : String) :
    Option (Counter × String) :=
  match m with
  | [] => none
  | (n, c, par) :: rest => if n = name then some (c, par) else lookupCounter rest name

/-- Insert `child` into the `std::set` of child counter names of `parent`
in `_child_counter_map` (set insertion: a no-op if already present). -/
def insertChildCounter (m : List (String × List String)) (parent child : String) :
    List (String × List String) :=
  match m with
  | [] => [(parent, [child])]
  | (n, cs) :: rest =>
    if n = parent then (n, if child ∈ cs then cs else cs ++ [child]) :: rest
    else (n, cs) :: insertChildCounter rest parent child

/-- `RuntimeProfile::add_child_counter(name, type, strategy, parent_name)`
(declared runtime_profile.h:436-437, documented runtime_profile.h:431-435:
"If the counter already exists, the existing counter object is returned").
Modelled from the spec: the body lives in `runtime_profile.cpp`, which is not
among the sources; per §4.2 registration is idempotent — if a counter with
that name already exists in the node the existing Counter is returned and
nothing changes (type/strategy of the repeat call ignored); otherwise a new
counter is created, inserted into the counter map and recorded as a child of
`parent_name` in the adjacency map. Returns the counter and the new state. -/
def add_child_counter (p : RuntimeProfile) (name : String) (type : TUnit)
    (strategy : TCounterStrategy) (parent_name : String) :
    Counter × RuntimeProfile :=
  match lookupCounter p.counter_map name with
  | some (c, _) => (c, p)
  | none =>
    let c := Counter.mk3 type strategy 0
    (c, { p with
          counter_map := p.counter_map ++ [(name, c, parent_name)],
          child_counter_map := insertChildCounter p.child_counter_map parent_name name })

/-- `RuntimeProfile::add_counter(name, type, strategy)`
(runtime_profile.h:438-440): delegates to `add_child_counter` with
`ROOT_COUNTER` as the parent name. -/
def add_counter (p : RuntimeProfile) (name : String) (type : TUnit)
    (strategy : TCounterStrategy) : Counter × RuntimeProfile :=
  add_child_counter p name type strategy ROOT_COUNTER

/-- Lookup of a child node by name in the ordered child list (the embedding
of `_child_map.find(name)`; by invariant (3) of the spec the map holds
exactly the nodes of the ordered list). -/
def findChild (cs : List (RuntimeProfile × Bool)) (name : String) :
    Option RuntimeProfile :=
  match cs with
  | [] => none
  | (c, _) :: rest => if c._name = name then some c else findChild rest name

/-- Replace the first child with the given name, keeping its indent flag. -/
def replaceChild (cs : List (RuntimeProfile × Bool)) (name : String)
    (c' : RuntimeProfile) : List (RuntimeProfile × Bool) :=
  match cs with
  | [] => []
  | (c, ind) :: rest =>
    if c._name = name then (c', ind) :: rest
    else (c, ind) :: replaceChild rest name c'

/-- `RuntimeProfile::create_child(name, indent, prepend)` (declared
runtime_profile.h:402, documented runtime_profile.h:395-401: "If a child
profile with that name already exist, the child will be returned, and the
arguments 'indent' and 'prepend' will be ignored").
Modelled from the spec: the body lives in `runtime_profile.cpp`, which is
not among the sources; per §4.3, if a child with that name exists it is
returned unchanged, otherwise a new node is allocated and inserted at the
front or back of the ordered child list per `prepend`. Returns the child
and the new state. -/
def create_child (p : RuntimeProfile) (name : String) (indent : Bool := true)
    (prepend : Bool := false) : RuntimeProfile × RuntimeProfile :=
  match findChild p.children name with
  | some c => (c, p)
  | none =>
    let c : RuntimeProfile := { _name := name, children := [] }
    (c, { p with children :=
          if prepend then (c, indent) :: p.children else p.children ++ [(c, indent)] })

/-- `RuntimeProfile::inc_version()` (runtime_profile.h:567-570):
`_version += 1` under `_version_lock`. -/
def inc_version (p : RuntimeProfile) : RuntimeProfile :=
  { p with _version := p._version + 1 }

/-- `RuntimeProfile::get_version()` (runtime_profile.h:572-575). -/
def get_version (p : RuntimeProfile) : Int := p._version

end RuntimeProfile

/-- One node of the flattened wire form (`TRuntimeProfileNode`, §6 of the
spec): name, version, its own counters (name, unit, value), and the declared
count of its direct children, which immediately follow in depth-first
pre-order. -/
structure TRuntimeProfileNode where
  name : String
  version : Int
  counters : List (String × TUnit × Int)
  num_children : Nat

namespace RuntimeProfile

/-- Apply one wire counter onto the counter map (§4.6 of the spec: "a
counter present in the snapshot but absent locally is created; present in
both is overwritten (not summed)"). -/
def applyTCounter (m : List (String × Counter × String)) (name : String)
    (type : TUnit) (value : Int) : List (String × Counter × String) :=
  match m with
  | [] => [(name, Counter.mk3 type (Counter.create_strategy type) value, ROOT_COUNTER)]
  | (n, c, par) :: rest =>
    if n = name then (n, Counter.set c value, par) :: rest
    else (n, c, par) :: applyTCounter rest name type value

/-- Apply all counters of one wire node onto the counter map. -/
def applyTCounters (m : List (String × Counter × String))
    (cs : List (String × TUnit × Int)) : List (String × Counter × String) :=
  match cs with
  | [] => m
  | (n, t, v) :: rest => applyTCounters (applyTCounter m n t v) rest

mutual

/-- `RuntimeProfile::update(nodes, idx, is_parent_node_old)`
(declared runtime_profile.h:662, documented runtime_profile.h:657-661:
"If the version of the parent node, or the version of root node for this
subtree is older, skip to update the subtree, but still traverse the nodes
of subtree to get the node immediately following this subtree. On return,
*idx points to the node immediately following this subtree.").
Modelled from the spec: the body lives in `runtime_profile.cpp`, which is
not among the sources. Per §4.6, the walk reads the wire node at the
cursor; the node is old when the parent was old or the incoming version is
not strictly newer than the locally stored version; an old node has its
value-updates skipped (counters and version untouched) while the traversal
still consumes its whole subtree; a fresh node has its counters applied
(overwrite/create) and its version adopted, and its declared number of
direct children are then walked in order, the staleness flag propagating.
The cursor is embedded as the remaining suffix of the flattened listing;
`fuel` bounds the recursion depth (any fuel larger than the subtree depth,
e.g. the length of the listing, is sufficient). -/
def update (fuel : Nat) (p : RuntimeProfile) (ns : List TRuntimeProfileNode)
    (is_parent_node_old : Bool) : RuntimeProfile × List TRuntimeProfileNode :=
  match fuel with
  | 0 => (p, ns)
  | fuel + 1 =>
    match ns with
    | [] => (p, [])
    | n :: rest =>
      let is_node_old := is_parent_node_old || decide (n.version ≤ p._version)
      if is_node_old then updateChildren fuel n.num_children p rest true
      else
        updateChildren fuel n.num_children
          { p with counter_map := applyTCounters p.counter_map n.counters,
                   _version := n.version } rest false
termination_by (fuel, 0)

/-- The child loop of `RuntimeProfile::update` (Modelled from the spec,
§4.6/§9): walk `k` child subtrees from the front of the remaining listing.
For an old parent the children are only traversed, never touched (a
throwaway node carries the recursion); for a fresh parent each wire child is
matched to the live child of the same name — found children are updated in
place, missing ones are created (with version −1 so that the brand-new
child is strictly older than any incoming version, which is non-negative
since live versions start at 0 and only grow) and appended, per the
round-trip requirement of §8 that updating an empty tree reproduces the
source tree. -/
def updateChildren (fuel : Nat) (k : Nat) (p : RuntimeProfile)
    (ns : List TRuntimeProfileNode) (is_old : Bool) :
    RuntimeProfile × List TRuntimeProfileNode :=
  match k with
  | 0 => (p, ns)
  | k + 1 =>
    match ns with
    | [] => (p, [])
    | m :: _ =>
      if is_old then
        let r := update fuel { _name := m.name, children := [] } ns true
        updateChildren fuel k p r.2 true
      else
        match findChild p.children m.name with
        | some c =>
          let r := update fuel c ns false
          updateChildren fuel k
            { p with children := replaceChild p.children m.name r.1 } r.2 false
        | none =>
          let r := update fuel { _name := m.name, _version := -1, children := [] } ns false
          updateChildren fuel k
            { p with children := p.children ++ [(r.1, true)] } r.2 false
termination_by (fuel, k + 1)

end

end RuntimeProfile

/-- The subtree span of the flattened wire form (§6 of the spec: each node
declares the count of its direct children, which follow in depth-first
pre-order, "enabling the reader to know where its subtree ends without
backtracking"): `skipN k ns` drops `k` consecutive subtrees from the front
of the listing — consuming one node entry replaces one pending subtree by
the node's declared number of child subtrees. `skipN 1 ns` is the suffix of
the listing immediately following the first entry's entire subtree span. -/
def skipN : Nat → List TRuntimeProfileNode → List TRuntimeProfileNode
  | 0, ns => ns
  | _ + 1, [] => []
  | k + 1, n :: rest => skipN (k + n.num_children) rest

namespace RuntimeProfile

/-- One instance's value for the counter named `name`, across the `N`
profiles being merged; instances missing the counter are tolerated by
skipping them (§4.5 of the spec / §7: "mismatched/missing counters are
tolerated by skipping them for that instance"). -/
def counterValuesAt (ps : List RuntimeProfile) (name : String) : List Int :=
  ps.filterMap fun q => (lookupCounter q.counter_map name).map fun cp => cp.1._value

/-- Minimum over the observed instance values (`N ≥ 1` in use; an empty
list yields 0). -/
def listMin : List Int → Int
  | [] => 0
  | v :: vs => vs.foldl min v

/-- Maximum over the observed instance values. -/
def listMax : List Int → Int
  | [] => 0
  | v :: vs => vs.foldl max v

/-- `RuntimeProfile::merge_isomorphic_counters(counters)` (declared
runtime_profile.h:684-685, returning the `MergedInfo` triple
`(merged_value, min, max)`).
Modelled from the spec: the body lives in `runtime_profile.cpp`, which is
not among the sources. Per §4.5, for the instances' values of one counter it
computes the SUM for SUM-strategy counters or the AVG for AVG-strategy
counters as the merged value, together with the minimum and maximum value
observed across instances. -/
def merge_isomorphic_counters (is_sum : Bool) (values : List Int) :
    Int × Int × Int :=
  (if is_sum then values.sum else values.sum / (values.length : Int),
   listMin values, listMax values)

/-- Overwrite the value of the (first) counter with the given name. -/
def setCounterValue (m : List (String × Counter × String)) (name : String)
    (v : Int) : List (String × Counter × String) :=
  match m with
  | [] => []
  | (n, c, par) :: rest =>
    if n = name then (n, Counter.set c v, par) :: rest
    else (n, c, par) :: setCounterValue rest name v

/-- One counter's step of the isomorphic merge (Modelled from the spec,
§4.5): set the counter of the result to the merged value and — unless the
counter's min-max policy is SKIP_ALL — publish the cross-instance minimum
and maximum as synthetic display values named by attaching
`MERGED_INFO_PREFIX_MIN` / `MERGED_INFO_PREFIX_MAX` in front of the
counter name. -/
def mergeStep (ps : List RuntimeProfile) (p : RuntimeProfile)
    (e : String × Counter × String) : RuntimeProfile :=
  let vs := counterValuesAt ps e.1
  let mi := merge_isomorphic_counters e.2.1.is_sum vs
  let p1 := { p with counter_map := setCounterValue p.counter_map e.1 mi.1 }
  if e.2.1.skip_min_max then p1
  else { p1 with info_strings := p1.info_strings ++
        [(MERGED_INFO_PREFIX_MIN ++ e.1, mi.2.1),
         (MERGED_INFO_PREFIX_MAX ++ e.1, mi.2.2)] }

/-- Merge every counter of the first profile across the `N` instances
(Modelled from the spec, §4.5); the result overwrites the first tree. -/
def mergeCountersInto (p0 : RuntimeProfile) (ps : List RuntimeProfile) :
    RuntimeProfile :=
  p0.counter_map.foldl (mergeStep ps) p0

/-- The recursive body of `RuntimeProfile::merge_isomorphic_profiles`
(Modelled from the spec, §4.5): merge the counters of the current nodes and
recurse into the structurally matching children (matched by name; per §4.5
the trees are assumed isomorphic, mismatches being tolerated by omission).
`fuel` bounds the recursion depth; the counters of the current node are
merged regardless of fuel. -/
def mergeIsomorphicGo : Nat → RuntimeProfile → List RuntimeProfile → RuntimeProfile
  | 0, p0, rest => mergeCountersInto p0 (p0 :: rest)
  | fuel + 1, p0, rest =>
    let merged := mergeCountersInto p0 (p0 :: rest)
    { merged with children :=
        p0.children.map fun ci =>
          (mergeIsomorphicGo fuel ci.1
            (rest.filterMap fun q => findChild q.children ci.1._name), ci.2) }

/-- Height of a profile tree, used as the depth fuel of the merge walk. -/
def depth (p : RuntimeProfile) : Nat :=
  (p.children.attach.map fun c => depth c.1.1).foldl max 0 + 1
termination_by p
decreasing_by
  have h1 : sizeOf c.1 < sizeOf p.children := List.sizeOf_lt_of_mem c.2
  have h2 : sizeOf c.1.1 < sizeOf c.1 := by
    rcases c with ⟨⟨a, b⟩, hm⟩
    simp [Prod.mk.sizeOf_spec]
    omega
  cases p
  simp only [children] at h1
  simp
  omega

/-- `RuntimeProfile::merge_isomorphic_profiles(obj_pool, profiles,
require_identical)` (declared runtime_profile.h:678-679: "The merged result
will be stored in the first profile").
Modelled from the spec: the body lives in `runtime_profile.cpp`, which is
not among the sources. The merged tree is the first profile with every
counter replaced by its cross-instance aggregate and the min/max display
values published next to it (§4.5); the depth fuel `depth p0` covers the
whole first tree. -/
def merge_isomorphic_profiles (ps : List RuntimeProfile) : RuntimeProfile :=
  match ps with
  | [] => { _name := "", children := [] }
  | p0 :: rest => mergeIsomorphicGo (depth p0) p0 rest

end RuntimeProfile

/-- A profile tree carrying only what `compute_time_in_profile` reads: each
node's total-time counter value (`_counter_total_time`,
runtime_profile.h:646) and its children. -/
structure TimeTree where
  total_time : Int
  children : List TimeTree

/-- A `TimeTree` annotated with the computed `_local_time_percent`
(runtime_profile.h:647-649), embedded as an exact rational. -/
structure TimeTreeFrac where
  total_time : Int
  local_time_frac : ℚ
  children : List TimeTreeFrac

/-- Sum of the direct children's total-time values. -/
def sumChildrenTotal (ts : List TimeTree) : Int := (ts.map (·.total_time)).sum

/-- `RuntimeProfile::compute_time_in_profile(total_time)` (declared
runtime_profile.h:664-667).
Modelled from the spec: the body lives in `runtime_profile.cpp`, which is
not among the sources. Per §4.7, a single top-down pass sets each node's
local-time-fraction to (the node's total-time value minus the sum of its
direct children's total-time values) divided by the root's total-time value,
clamped to [0, 1], and to 0 when the root total time is 0; every node is
divided by the same root total. -/
def computeTimeGo (root_total : Int) (t : TimeTree) : TimeTreeFrac :=
  let frac : ℚ :=
    if root_total = 0 then 0
    else ((t.total_time - sumChildrenTotal t.children : Int) : ℚ) / (root_total : ℚ)
  { total_time := t.total_time,
    local_time_frac := max 0 (min 1 frac),
    children := t.children.attach.map fun c => computeTimeGo root_total c.1 }
termination_by t
decreasing_by
  have h1 : sizeOf c.1 < sizeOf t.children := List.sizeOf_lt_of_mem c.2
  cases t
  simp only [TimeTree.children] at h1
  simp
  omega

/-- `RuntimeProfile::compute_time_in_profile()` (declared
runtime_profile.h:562-565). Modelled from the spec (§4.7): the public entry
point divides every node by the root's own total-time value. -/
def compute_time_in_profile (t : TimeTree) : TimeTreeFrac :=
  computeTimeGo t.total_time t

namespace RuntimeProfile

/-- Apply `Counter::update(delta)` to the named counter of the counter map
(the thread-safe hot-path value mutation, runtime_profile.h:166). -/
def updateCounterBy (m : List (String × Counter × String)) (name : String)
    (delta : Int) : List (String × Counter × String) :=
  match m with
  | [] => []
  | (n, c, par) :: rest =>
    if n = name then (n, Counter.update c delta, par) :: rest
    else (n, c, par) :: updateCounterBy rest name delta

/-- The operations of one profile node covered by the embedding: version
increment (runtime_profile.h:567-570), counter registration
(runtime_profile.h:436-440), child creation (runtime_profile.h:402),
hot-path counter value updates (runtime_profile.h:166), info-string
insertion (runtime_profile.h:483), and the incremental update from a wire
snapshot (runtime_profile.h:429, 662). -/
inductive NodeOp where
  | incVersion
  | addCounter (name : String) (type : TUnit) (strategy : TCounterStrategy)
  | addChildCounter (name : String) (type : TUnit) (strategy : TCounterStrategy)
      (parent_name : String)
  | createChild (name : String) (indent prepend : Bool)
  | counterUpdate (name : String) (delta : Int)
  | addInfoString (key : String) (value : Int)
  | updateFromSnapshot (fuel : Nat) (ns : List TRuntimeProfileNode)

/-- Effect of one `NodeOp` on the node's state. -/
def applyOp (p : RuntimeProfile) : NodeOp → RuntimeProfile
  | NodeOp.incVersion => inc_version p
  | NodeOp.addCounter name t s => (add_counter p name t s).2
  | NodeOp.addChildCounter name t s par => (add_child_counter p name t s par).2
  | NodeOp.createChild name ind pre => (create_child p name ind pre).2
  | NodeOp.counterUpdate name d =>
      { p with counter_map := updateCounterBy p.counter_map name d }
  | NodeOp.addInfoString k v => { p with info_strings := p.info_strings ++ [(k, v)] }
  | NodeOp.updateFromSnapshot fuel ns => (update fuel p ns false).1

/-- A single-node instance profile carrying one SUM counter `"rows"` with
the given value (the merge-N example of §8 of the spec). -/
def sumCounterProfile (v : Int) : RuntimeProfile :=
  { _name := "instance",
    counter_map := [("rows",
      Counter.mk3 TUnit.UNIT (Counter.create_strategy_agg TCounterAggregateType.SUM) v,
      ROOT_COUNTER)],
    children := [] }

/-- A single-node instance profile carrying one AVG counter `"latency_ns"`
with the given value (the merge-N example of §8 of the spec). -/
def avgCounterProfile (v : Int) : RuntimeProfile :=
  { _name := "instance",
    counter_map := [("latency_ns",
      Counter.mk3 TUnit.TIME_NS (Counter.create_strategy_agg TCounterAggregateType.AVG) v,
      ROOT_COUNTER)],
    children := [] }

end RuntimeProfile

/-! ## Theorems -/

/-- C9: a Counter built with the two-argument constructor
`Counter(type, value)` reports `value() = 0` whatever initial value was
passed (the argument is dropped by the initializer list), while the
three-argument constructor `Counter(type, strategy, value)` stores the
given value. -/
theorem counter_two_arg_ctor_discards_value :
    (∀ (t : TUnit) (v : Int), (Counter.mk2 t v).value = 0) ∧
    (∀ (t : TUnit) (s : TCounterStrategy) (v : Int), (Counter.mk3 t s v).value = v) :=
  ⟨fun _ _ => rfl, fun _ _ _ => rfl⟩

/-- C10: a freshly constructed `LowWaterMarkCounter`
(`WaterMarkCounter<false>`) reports `value() = 2^63 − 1` and
`current_value() = 2^63 − 1` before any mutation, while a freshly
constructed `HighWaterMarkCounter` reports 0 for both. -/
theorem watermark_fresh_initial_values :
    ((WaterMarkCounter._set_init_value false).value = 2 ^ 63 - 1 ∧
     (WaterMarkCounter._set_init_value false).current_value = 2 ^ 63 - 1) ∧
    ((WaterMarkCounter._set_init_value true).value = 0 ∧
     (WaterMarkCounter._set_init_value true).current_value = 0) := by
  refine ⟨⟨?_, ?_⟩, ?_, ?_⟩ <;>
    norm_num [WaterMarkCounter._set_init_value, WaterMarkCounter.value,
      WaterMarkCounter.current_value, WaterMarkCounter.MAX_INT64]

/-- C3 counterexample: a high-watermark counter whose current value is
already 100 (reachable through `set` or `add`, which enforce no bound)
keeps a current value greater than `max = 50` after `try_add(1, 50)` — the
call fails and leaves the value unchanged, so, taken over every watermark
counter state, the clause "in no case does the call leave the current value
greater than max" is false. -/
theorem try_add_counterexample :
    ((WaterMarkCounter.try_add true ⟨100, 100⟩ 1 50).2).current_value > 50 ∧
    (WaterMarkCounter.try_add true ⟨100, 100⟩ 1 50).1 = false := by decide

/-- C3 (amended): `try_add(delta, max)` returns true and sets the current
value to `c + delta` when `c + delta ≤ max`, and returns false leaving the
current value and the recorded extreme unchanged when `c + delta > max`;
and whenever the current value did not already exceed `max`, the call never
leaves it greater than `max` (the call can never raise the current value
above `max`). -/
theorem try_add_spec (is_high : Bool) (w : WaterMarkCounter) (delta mx : Int) :
    (w.current_value + delta ≤ mx →
       (WaterMarkCounter.try_add is_high w delta mx).1 = true ∧
       ((WaterMarkCounter.try_add is_high w delta mx).2).current_value
         = w.current_value + delta) ∧
    (w.current_value + delta > mx →
       WaterMarkCounter.try_add is_high w delta mx = (false, w)) ∧
    (w.current_value ≤ mx →
       ((WaterMarkCounter.try_add is_high w delta mx).2).current_value ≤ mx) := by
  refine ⟨?_, ?_, ?_⟩ <;> intro h <;>
    simp only [WaterMarkCounter.try_add, WaterMarkCounter.current_value,
      WaterMarkCounter.Update] at h ⊢
  · rw [if_neg (by omega)]
    exact ⟨rfl, rfl⟩
  · rw [if_pos (by omega)]
  · split
    · exact h
    · next hc => simp only [gt_iff_lt, not_lt] at hc; exact hc

/-- C3 amended-claim witness: a successful bounded add at a concrete
state. -/
theorem try_add_spec_witness :
    ((⟨5, 5⟩ : WaterMarkCounter).current_value + 3 ≤ 10) ∧
    ((WaterMarkCounter.try_add true ⟨5, 5⟩ 3 10).1 = true ∧
     ((WaterMarkCounter.try_add true ⟨5, 5⟩ 3 10).2).current_value
       = (⟨5, 5⟩ : WaterMarkCounter).current_value + 3) :=
  ⟨by decide, (try_add_spec true ⟨5, 5⟩ 3 10).1 (by decide)⟩

/-- C4: a scoped timer on a non-null counter adds the elapsed duration to
the counter at scope exit (the destructor runs `UpdateCounter` exactly
once), except that when the cancellation flag pointer is non-null and the
flag reads true at exit the update is suppressed and the counter is left
unchanged. -/
theorem scoped_timer_exit_spec (v elapsed : Int) (flag : Option Bool) :
    (flag = some true → ScopedTimer.exit (some v) flag elapsed = some v) ∧
    (flag ≠ some true → ScopedTimer.exit (some v) flag elapsed = some (v + elapsed)) := by
  constructor
  · intro h
    subst h
    rfl
  · intro h
    match flag with
    | none => rfl
    | some true => exact absurd rfl h
    | some false => rfl

/-- C4 witness: a counter starting at 0 whose scoped timer elapses 50 time
units and exits with the cancellation flag observed true is left at 0. -/
theorem scoped_timer_exit_witness :
    ((some true : Option Bool) = some true) ∧
    ScopedTimer.exit (some 0) (some true) 50 = some 0 :=
  ⟨rfl, (scoped_timer_exit_spec 0 50 (some true)).1 rfl⟩

theorem skipN_nil (k : Nat) : skipN k ([] : List TRuntimeProfileNode) = [] := by
  cases k <;> rfl

theorem skipN_skipN (ns : List TRuntimeProfileNode) :
    ∀ a b : Nat, skipN a (skipN b ns) = skipN (b + a) ns := by
  induction ns with
  | nil => intro a b; rw [skipN_nil, skipN_nil, skipN_nil]
  | cons n rest ih =>
    intro a b
    cases b with
    | zero => simp [skipN]
    | succ b =>
      have h1 : skipN (b + 1) (n :: rest) = skipN (b + n.num_children) rest := rfl
      have h2 : b + 1 + a = (b + a) + 1 := by omega
      have h3 : skipN ((b + a) + 1) (n :: rest) = skipN ((b + a) + n.num_children) rest := rfl
      rw [h1, ih, h2, h3]
      congr 1
      omega

theorem skipN_length_le (ns : List TRuntimeProfileNode) :
    ∀ k, (skipN k ns).length ≤ ns.length := by
  induction ns with
  | nil => intro k; rw [skipN_nil]
  | cons n rest ih =>
    intro k
    cases k with
    | zero => exact Nat.le_refl _
    | succ k =>
      calc (skipN (k + n.num_children) rest).length ≤ rest.length := ih _
        _ ≤ (n :: rest).length := by simp

namespace RuntimeProfile

theorem updateChildren_fst_stale (fuel : Nat) : ∀ (k : Nat) (p : RuntimeProfile)
    (ns : List TRuntimeProfileNode), (updateChildren fuel k p ns true).1 = p := by
  intro k
  induction k with
  | zero => intro p ns; simp [updateChildren]
  | succ k ih =>
    intro p ns
    cases ns with
    | nil => simp [updateChildren]
    | cons m rest =>
      simp only [updateChildren, if_true]
      exact ih p _

theorem update_fst_stale (fuel : Nat) (p : RuntimeProfile)
    (ns : List TRuntimeProfileNode) : (update fuel p ns true).1 = p := by
  cases fuel with
  | zero => simp [update]
  | succ fuel =>
    cases ns with
    | nil => simp [update]
    | cons n rest =>
      simp only [update, Bool.true_or, if_pos rfl]
      exact updateChildren_fst_stale fuel n.num_children p rest

theorem updateChildren_fst_version (fuel : Nat) : ∀ (k : Nat) (p : RuntimeProfile)
    (ns : List TRuntimeProfileNode) (old : Bool),
    ((updateChildren fuel k p ns old).1)._version = p._version := by
  intro k
  induction k with
  | zero => intro p ns old; simp [updateChildren]
  | succ k ih =>
    intro p ns old
    cases ns with
    | nil => simp [updateChildren]
    | cons m rest =>
      cases old with
      | true =>
        simp only [updateChildren, if_true]
        exact ih p _ true
      | false =>
        simp only [updateChildren, Bool.false_eq_true, if_false]
        cases hf : findChild p.children m.name with
        | some c => simp only [hf]; rw [ih]
        | none => simp only [hf]; rw [ih]

theorem update_fst_version (fuel : Nat) (p : RuntimeProfile)
    (ns : List TRuntimeProfileNode) (old : Bool) :
    p._version ≤ ((update fuel p ns old).1)._version := by
  cases fuel with
  | zero => simp [update]
  | succ fuel =>
    cases ns with
    | nil => simp [update]
    | cons n rest =>
      simp only [update]
      split
      · rw [updateChildren_fst_version]
      · next hcond =>
        rw [updateChildren_fst_version]
        simp only [Bool.or_eq_true, decide_eq_true_eq, not_or] at hcond
        exact le_of_lt (lt_of_not_le hcond.2)

theorem update_cursor : ∀ fuel : Nat,
    (∀ (p : RuntimeProfile) (ns : List TRuntimeProfileNode) (old : Bool),
        ns.length ≤ fuel → (update fuel p ns old).2 = skipN 1 ns) ∧
    (∀ (k : Nat) (p : RuntimeProfile) (ns : List TRuntimeProfileNode) (old : Bool),
        ns.length ≤ fuel → (updateChildren fuel k p ns old).2 = skipN k ns) := by
  intro fuel
  induction fuel with
  | zero =>
    constructor
    · intro p ns old h
      cases ns with
      | nil => simp [update, skipN_nil]
      | cons n rest => simp at h
    · intro k p ns old h
      cases ns with
      | nil => cases k <;> simp [updateChildren, skipN_nil]
      | cons n rest => simp at h
  | succ fuel ih =>
    have hG : ∀ (p : RuntimeProfile) (ns : List TRuntimeProfileNode) (old : Bool),
        ns.length ≤ fuel + 1 → (update (fuel + 1) p ns old).2 = skipN 1 ns := by
      intro p ns old h
      cases ns with
      | nil => simp [update, skipN_nil]
      | cons n rest =>
        have hlen : rest.length ≤ fuel := by simp at h; omega
        have hskip : skipN 1 (n :: rest) = skipN n.num_children rest := by
          show skipN (0 + n.num_children) rest = skipN n.num_children rest
          rw [Nat.zero_add]
        simp only [update]
        rw [hskip]
        split <;> exact ih.2 _ _ rest _ hlen
    refine ⟨hG, ?_⟩
    intro k
    induction k with
    | zero => intro p ns old h; simp [updateChildren, skipN]
    | succ k ihk =>
      intro p ns old h
      cases ns with
      | nil => simp [updateChildren, skipN_nil]
      | cons m rest =>
        have hlen2 : (skipN 1 (m :: rest)).length ≤ fuel + 1 :=
          le_trans (skipN_length_le _ _) h
        have hfin : skipN k (skipN 1 (m :: rest)) = skipN (k + 1) (m :: rest) := by
          rw [skipN_skipN, Nat.add_comm]
        cases old with
        | true =>
          simp only [updateChildren, if_true]
          rw [hG { _name := m.name, children := [] } (m :: rest) true h]
          rw [ihk p (skipN 1 (m :: rest)) true hlen2]
          exact hfin
        | false =>
          simp only [updateChildren, Bool.false_eq_true, if_false]
          cases hf : findChild p.children m.name with
          | some c =>
            simp only [hf]
            rw [hG c (m :: rest) false h]
            rw [ihk _ (skipN 1 (m :: rest)) false hlen2]
            exact hfin
          | none =>
            simp only [hf]
            rw [hG { _name := m.name, _version := -1, children := [] } (m :: rest) false h]
            rw [ihk _ (skipN 1 (m :: rest)) false hlen2]
            exact hfin

end RuntimeProfile

namespace RuntimeProfile

theorem lookupCounter_append_of_none (m : List (String × Counter × String))
    (name : String) (c : Counter) (par : String)
    (h : lookupCounter m name = none) :
    lookupCounter (m ++ [(name, c, par)]) name = some (c, par) := by
  induction m with
  | nil => simp [lookupCounter]
  | cons e rest ih =>
    obtain ⟨n, c0, p0⟩ := e
    simp only [lookupCounter, List.cons_append] at h ⊢
    by_cases hn : n = name
    · simp [hn] at h
    · simp only [if_neg hn] at h ⊢
      exact ih h

theorem findChild_append_of_none (cs : List (RuntimeProfile × Bool))
    (name : String) (c : RuntimeProfile) (ind : Bool)
    (h : findChild cs name = none) (hc : c._name = name) :
    findChild (cs ++ [(c, ind)]) name = some c := by
  induction cs with
  | nil => simp [findChild, hc]
  | cons e rest ih =>
    obtain ⟨c0, i0⟩ := e
    simp only [findChild, List.cons_append] at h ⊢
    by_cases hn : c0._name = name
    · simp [hn] at h
    · simp only [if_neg hn] at h ⊢
      exact ih h

end RuntimeProfile

/-- C5: `add_counter` and `create_child` are idempotent — a second call with
a name already registered returns exactly the first call's result: the same
counter (resp. child) object and the unchanged node state (counter map,
child-counter adjacency map, ordered child list and child map all as they
were), with the repeat call's type/strategy (resp. indent/prepend) ignored. -/
theorem registration_idempotent (p : StarRocks.RuntimeProfile) (name : String)
    (t t' : TUnit) (s s' : TCounterStrategy) (ind pre ind' pre' : Bool) :
    RuntimeProfile.add_counter ((RuntimeProfile.add_counter p name t s).2) name t' s'
      = RuntimeProfile.add_counter p name t s ∧
    RuntimeProfile.create_child ((RuntimeProfile.create_child p name ind pre).2) name ind' pre'
      = RuntimeProfile.create_child p name ind pre := by
  constructor
  · unfold RuntimeProfile.add_counter RuntimeProfile.add_child_counter
    cases hx : RuntimeProfile.lookupCounter p.counter_map name with
    | some cp => simp [hx]
    | none =>
      simp only [hx]
      rw [RuntimeProfile.lookupCounter_append_of_none p.counter_map name _ _ hx]
  · unfold RuntimeProfile.create_child
    cases hx : RuntimeProfile.findChild p.children name with
    | some c => simp [hx]
    | none =>
      have happ := RuntimeProfile.findChild_append_of_none p.children name
        { _name := name, children := [] } ind hx rfl
      cases pre with
      | true => simp [hx, RuntimeProfile.findChild]
      | false => simp [hx, happ]

/-- C1: applying `update` at a wire node whose incoming version is not
strictly newer than the locally stored version leaves the live node
entirely unchanged — in particular every counter value of the node and of
its whole subtree — yet the returned cursor is exactly the suffix of the
flattened listing immediately following that node's entire subtree span
(`skipN 1`), so the sibling that follows is read from the correct
position. `fuel` is any depth bound at least the length of the remaining
listing. -/
theorem update_stale_skips_values_but_consumes_subtree
    (fuel : Nat) (p : StarRocks.RuntimeProfile) (n : TRuntimeProfileNode)
    (rest : List TRuntimeProfileNode)
    (hfuel : (n :: rest).length ≤ fuel)
    (hstale : n.version ≤ p._version) :
    RuntimeProfile.update fuel p (n :: rest) false = (p, skipN 1 (n :: rest)) := by
  have h2 := (RuntimeProfile.update_cursor fuel).1 p (n :: rest) false hfuel
  have h1 : (RuntimeProfile.update fuel p (n :: rest) false).1 = p := by
    cases fuel with
    | zero => simp at hfuel
    | succ fuel =>
      simp only [RuntimeProfile.update]
      rw [if_pos (by simp [hstale])]
      exact RuntimeProfile.updateChildren_fst_stale fuel n.num_children p rest
  calc RuntimeProfile.update fuel p (n :: rest) false
      = ((RuntimeProfile.update fuel p (n :: rest) false).1,
         (RuntimeProfile.update fuel p (n :: rest) false).2) := rfl
    _ = (p, skipN 1 (n :: rest)) := by rw [h1, h2]

/-- C1 witness: a three-entry flattened listing [root (1 child), child,
sibling] whose root version 5 is not strictly newer than the live version
5: the live node is untouched and the cursor lands exactly on the sibling
entry. -/
theorem update_stale_skip_witness :
    (([⟨"root", 5, [("rows", TUnit.UNIT, 99)], 1⟩,
       ⟨"child", 3, [], 0⟩, ⟨"sib", 9, [], 0⟩] : List TRuntimeProfileNode).length ≤ 3) ∧
    ((⟨"root", 5, [("rows", TUnit.UNIT, 99)], 1⟩ : TRuntimeProfileNode).version ≤
      ({ _name := "root", _version := 5, children := [] } : StarRocks.RuntimeProfile)._version) ∧
    RuntimeProfile.update 3
      { _name := "root", _version := 5, children := [] }
      [⟨"root", 5, [("rows", TUnit.UNIT, 99)], 1⟩,
       ⟨"child", 3, [], 0⟩, ⟨"sib", 9, [], 0⟩] false
    = ({ _name := "root", _version := 5, children := [] },
       [⟨"sib", 9, [], 0⟩]) :=
  ⟨by decide, by decide,
    (update_stale_skips_values_but_consumes_subtree 3
      { _name := "root", _version := 5, children := [] }
      ⟨"root", 5, [("rows", TUnit.UNIT, 99)], 1⟩
      [⟨"child", 3, [], 0⟩, ⟨"sib", 9, [], 0⟩]
      (by decide) (by decide)).trans (by rfl)⟩

/-- C8: the version integer of a profile node only increases: after any
sequence of node operations `get_version` never returns a smaller value,
and `inc_version` increases the stored version by exactly 1. -/
theorem version_only_increases :
    (∀ (p : StarRocks.RuntimeProfile) (ops : List RuntimeProfile.NodeOp),
        RuntimeProfile.get_version p ≤
          RuntimeProfile.get_version (ops.foldl RuntimeProfile.applyOp p)) ∧
    (∀ p : StarRocks.RuntimeProfile,
        RuntimeProfile.get_version (RuntimeProfile.inc_version p)
          = RuntimeProfile.get_version p + 1) := by
  have hop : ∀ (p : StarRocks.RuntimeProfile) (op : RuntimeProfile.NodeOp),
      p._version ≤ (RuntimeProfile.applyOp p op)._version := by
    intro p op
    cases op with
    | incVersion =>
      simp only [RuntimeProfile.applyOp, RuntimeProfile.inc_version]
      omega
    | addCounter name t s =>
      simp only [RuntimeProfile.applyOp, RuntimeProfile.add_counter,
        RuntimeProfile.add_child_counter]
      cases hx : RuntimeProfile.lookupCounter p.counter_map name <;> simp [hx]
    | addChildCounter name t s par =>
      simp only [RuntimeProfile.applyOp, RuntimeProfile.add_child_counter]
      cases hx : RuntimeProfile.lookupCounter p.counter_map name <;> simp [hx]
    | createChild name ind pre =>
      simp only [RuntimeProfile.applyOp, RuntimeProfile.create_child]
      cases hx : RuntimeProfile.findChild p.children name <;> cases pre <;> simp [hx]
    | counterUpdate name d => simp [RuntimeProfile.applyOp]
    | addInfoString k v => simp [RuntimeProfile.applyOp]
    | updateFromSnapshot fuel ns =>
      exact RuntimeProfile.update_fst_version fuel p ns false
  constructor
  · intro p ops
    induction ops generalizing p with
    | nil => exact le_refl _
    | cons op ops ih =>
      simp only [List.foldl_cons]
      exact le_trans (hop p op) (ih _)
  · intro p
    rfl

/-- C7: every interleaving of concurrent `update(delta)` calls — each call
one atomic `fetch_add`, so an interleaving is any order (any permutation of
the threads' concatenated delta lists) in which the atomic cell applied the
individual deltas — leaves the counter at its initial value plus the exact
sum of all deltas: no increment is lost. -/
theorem counter_updates_never_lost (init : Int) (threads : List (List Int))
    (order : List Int) (h : order.Perm threads.flatten) :
    applyUpdates init order = init + (threads.map List.sum).sum := by
  have h1 : ∀ (ds : List Int) (i : Int), applyUpdates i ds = i + ds.sum := by
    intro ds
    induction ds with
    | nil => intro i; simp [applyUpdates]
    | cons d rest ih =>
      intro i
      have hstep : applyUpdates i (d :: rest) = applyUpdates (i + d) rest := rfl
      rw [hstep, ih, List.sum_cons]
      ring
  rw [h1, h.sum_eq, List.sum_flatten]

/-- C7 witness: two threads posting deltas `[1, 2]` and `[3]`, observed by
the cell in the interleaved order `[3, 1, 2]`, leave the counter at
`0 + 6`. -/
theorem counter_updates_never_lost_witness :
    (([3, 1, 2] : List Int).Perm ([[1, 2], [3]] : List (List Int)).flatten) ∧
    applyUpdates 0 [3, 1, 2] = 0 + (([[1, 2], [3]] : List (List Int)).map List.sum).sum :=
  ⟨by decide, counter_updates_never_lost 0 [[1, 2], [3]] [3, 1, 2] (by decide)⟩

namespace RuntimeProfile

theorem lookupCounter_setCounterValue_self (m : List (String × Counter × String))
    (name : String) (v : Int) :
    lookupCounter (setCounterValue m name v) name
      = (lookupCounter m name).map fun cp => (Counter.set cp.1 v, cp.2) := by
  induction m with
  | nil => simp [lookupCounter, setCounterValue]
  | cons e rest ih =>
    obtain ⟨n, c0, p0⟩ := e
    by_cases hn : n = name
    · subst hn
      simp [lookupCounter, setCounterValue]
    · simp [lookupCounter, setCounterValue, hn, ih]

theorem lookupCounter_setCounterValue_ne (m : List (String × Counter × String))
    (name nm : String) (v : Int) (h : nm ≠ name) :
    lookupCounter (setCounterValue m name v) nm = lookupCounter m nm := by
  induction m with
  | nil => simp [lookupCounter, setCounterValue]
  | cons e rest ih =>
    obtain ⟨n, c0, p0⟩ := e
    by_cases hn : n = name
    · subst hn
      have hn2 : n ≠ nm := fun hc => h hc.symm
      simp [lookupCounter, setCounterValue, hn2]
    · by_cases hn3 : n = nm
      · simp [lookupCounter, setCounterValue, hn, hn3, h]
      · simp [lookupCounter, setCounterValue, hn, hn3, ih]

theorem mergeStep_counter_map (ps : List RuntimeProfile) (acc : RuntimeProfile)
    (e : String × Counter × String) :
    (mergeStep ps acc e).counter_map
      = setCounterValue acc.counter_map e.1
          (merge_isomorphic_counters e.2.1.is_sum (counterValuesAt ps e.1)).1 := by
  by_cases hs : e.2.1.skip_min_max = true <;> simp [mergeStep, hs]

theorem mergeStep_infos_mono (ps : List RuntimeProfile) (acc : RuntimeProfile)
    (e : String × Counter × String) (x : String × Int)
    (h : x ∈ acc.info_strings) : x ∈ (mergeStep ps acc e).info_strings := by
  by_cases hs : e.2.1.skip_min_max = true <;> simp [mergeStep, hs]
  · exact h
  · exact Or.inl h

theorem foldl_mergeStep_lookup_ne (ps : List RuntimeProfile)
    (entries : List (String × Counter × String)) :
    ∀ (acc : RuntimeProfile) (nm : String), nm ∉ entries.map (fun e => e.1) →
    lookupCounter ((entries.foldl (mergeStep ps) acc)).counter_map nm
      = lookupCounter acc.counter_map nm := by
  induction entries with
  | nil => intro acc nm _; rfl
  | cons e rest ih =>
    intro acc nm h
    simp only [List.map_cons, List.mem_cons, not_or] at h
    simp only [List.foldl_cons]
    rw [ih _ _ h.2, mergeStep_counter_map, lookupCounter_setCounterValue_ne _ _ _ _ h.1]

theorem foldl_mergeStep_infos_mono (ps : List RuntimeProfile)
    (entries : List (String × Counter × String)) :
    ∀ (acc : RuntimeProfile) (x : String × Int), x ∈ acc.info_strings →
    x ∈ ((entries.foldl (mergeStep ps) acc)).info_strings := by
  induction entries with
  | nil => intro acc x h; exact h
  | cons e rest ih =>
    intro acc x h
    simp only [List.foldl_cons]
    exact ih _ _ (mergeStep_infos_mono ps acc e x h)

theorem foldl_mergeStep_spec (ps : List RuntimeProfile) :
    ∀ (entries : List (String × Counter × String)) (acc : RuntimeProfile),
    (entries.map (fun e => e.1)).Nodup →
    (∀ e ∈ entries, lookupCounter acc.counter_map e.1 = some (e.2.1, e.2.2)) →
    ∀ e ∈ entries,
      lookupCounter ((entries.foldl (mergeStep ps) acc)).counter_map e.1
        = some (Counter.set e.2.1
            (merge_isomorphic_counters e.2.1.is_sum (counterValuesAt ps e.1)).1, e.2.2)
      ∧ (e.2.1.skip_min_max = false →
          (MERGED_INFO_PREFIX_MIN ++ e.1, listMin (counterValuesAt ps e.1))
            ∈ ((entries.foldl (mergeStep ps) acc)).info_strings ∧
          (MERGED_INFO_PREFIX_MAX ++ e.1, listMax (counterValuesAt ps e.1))
            ∈ ((entries.foldl (mergeStep ps) acc)).info_strings) := by
  intro entries
  induction entries with
  | nil =>
    intro acc _ _ e he
    exact absurd he (List.not_mem_nil e)
  | cons e0 rest ih =>
    intro acc hnd hinv e he
    simp only [List.map_cons] at hnd
    have hnd2 := List.nodup_cons.mp hnd
    simp only [List.foldl_cons]
    rcases List.mem_cons.mp he with rfl | herest
    · constructor
      · rw [foldl_mergeStep_lookup_ne ps rest (mergeStep ps acc e) e.1 hnd2.1]
        rw [mergeStep_counter_map, lookupCounter_setCounterValue_self,
          hinv e (List.mem_cons_self e rest)]
        rfl
      · intro hskip
        have hmem : ∀ x ∈ [(MERGED_INFO_PREFIX_MIN ++ e.1, listMin (counterValuesAt ps e.1)),
            (MERGED_INFO_PREFIX_MAX ++ e.1, listMax (counterValuesAt ps e.1))],
            x ∈ (mergeStep ps acc e).info_strings := by
          intro x hx
          simp only [mergeStep, Bool.not_eq_true] at hskip ⊢
          rw [if_neg (by rw [hskip]; exact Bool.false_ne_true)]
          simp only [List.mem_append]
          exact Or.inr hx
        constructor
        · exact foldl_mergeStep_infos_mono ps rest _ _ (hmem _ (by simp))
        · exact foldl_mergeStep_infos_mono ps rest _ _ (hmem _ (by simp))
    · refine ih (mergeStep ps acc e0) hnd2.2 ?_ e herest
      intro f hf
      have hfne : f.1 ≠ e0.1 := by
        intro hc
        exact hnd2.1 (hc ▸ List.mem_map_of_mem (fun x => x.1) hf)
      rw [mergeStep_counter_map, lookupCounter_setCounterValue_ne _ _ _ _ hfne]
      exact hinv f (List.mem_cons_of_mem e0 hf)

theorem lookupCounter_of_mem_nodup (m : List (String × Counter × String)) :
    (m.map (fun e => e.1)).Nodup →
    ∀ e ∈ m, lookupCounter m e.1 = some (e.2.1, e.2.2) := by
  induction m with
  | nil => intro _ e he; exact absurd he (List.not_mem_nil e)
  | cons e0 rest ih =>
    intro hnd e he
    simp only [List.map_cons] at hnd
    have hnd2 := List.nodup_cons.mp hnd
    rcases List.mem_cons.mp he with rfl | herest
    · obtain ⟨n, c0, p0⟩ := e
      simp [lookupCounter]
    · obtain ⟨n0, c0, p0⟩ := e0
      have hne : n0 ≠ e.1 := by
        intro hc
        exact hnd2.1 (hc ▸ List.mem_map_of_mem (fun x => x.1) herest)
      simp only [lookupCounter, if_neg hne]
      exact ih hnd2.2 e herest

theorem merge_isomorphic_profiles_proj (p0 : RuntimeProfile)
    (rest : List RuntimeProfile) :
    (merge_isomorphic_profiles (p0 :: rest)).counter_map
        = (mergeCountersInto p0 (p0 :: rest)).counter_map ∧
    (merge_isomorphic_profiles (p0 :: rest)).info_strings
        = (mergeCountersInto p0 (p0 :: rest)).info_strings := by
  have hgo : ∀ (fuel : Nat) (q : RuntimeProfile) (qs : List RuntimeProfile),
      (mergeIsomorphicGo fuel q qs).counter_map
          = (mergeCountersInto q (q :: qs)).counter_map ∧
      (mergeIsomorphicGo fuel q qs).info_strings
          = (mergeCountersInto q (q :: qs)).info_strings := by
    intro fuel
    cases fuel <;> intro q qs <;> exact ⟨rfl, rfl⟩
  exact ⟨(hgo _ p0 rest).1, (hgo _ p0 rest).2⟩

end RuntimeProfile

/-- C2: for structurally identical instance profiles,
`merge_isomorphic_profiles` stores in the first tree, for every counter of
the first tree's node, the SUM of the instances' values when the counter's
aggregate strategy is SUM and their average when it is AVG, and — unless
the counter's min-max policy is SKIP_ALL — publishes the cross-instance
minimum and maximum as display values named `__MIN_OF_`/`__MAX_OF_` plus
the counter name; in particular three trees with SUM counter "rows" =
{10, 20, 30} yield rows = 60 with published minimum 10 and maximum 30, and
three trees with AVG counter "latency_ns" = {100, 200, 300} yield
latency_ns = 200. -/
theorem merge_isomorphic_profiles_spec :
    (∀ (p0 : StarRocks.RuntimeProfile) (rest : List StarRocks.RuntimeProfile)
        (name : String) (c : Counter) (par : String),
      (p0.counter_map.map (fun e => e.1)).Nodup →
      (name, c, par) ∈ p0.counter_map →
      ((RuntimeProfile.lookupCounter
          (RuntimeProfile.merge_isomorphic_profiles (p0 :: rest)).counter_map name).map
            (fun cp => cp.1.value)
        = some (if c.is_sum
            then (RuntimeProfile.counterValuesAt (p0 :: rest) name).sum
            else (RuntimeProfile.counterValuesAt (p0 :: rest) name).sum
                 / ((RuntimeProfile.counterValuesAt (p0 :: rest) name).length : Int)))
      ∧ (c.skip_min_max = false →
        (MERGED_INFO_PREFIX_MIN ++ name,
           RuntimeProfile.listMin (RuntimeProfile.counterValuesAt (p0 :: rest) name))
          ∈ (RuntimeProfile.merge_isomorphic_profiles (p0 :: rest)).info_strings ∧
        (MERGED_INFO_PREFIX_MAX ++ name,
           RuntimeProfile.listMax (RuntimeProfile.counterValuesAt (p0 :: rest) name))
          ∈ (RuntimeProfile.merge_isomorphic_profiles (p0 :: rest)).info_strings)) ∧
    (((RuntimeProfile.lookupCounter
        (RuntimeProfile.merge_isomorphic_profiles
          [RuntimeProfile.sumCounterProfile 10, RuntimeProfile.sumCounterProfile 20,
           RuntimeProfile.sumCounterProfile 30]).counter_map "rows").map
          (fun cp => cp.1.value) = some 60) ∧
     (("__MIN_OF_rows", (10 : Int)) ∈
        (RuntimeProfile.merge_isomorphic_profiles
          [RuntimeProfile.sumCounterProfile 10, RuntimeProfile.sumCounterProfile 20,
           RuntimeProfile.sumCounterProfile 30]).info_strings) ∧
     (("__MAX_OF_rows", (30 : Int)) ∈
        (RuntimeProfile.merge_isomorphic_profiles
          [RuntimeProfile.sumCounterProfile 10, RuntimeProfile.sumCounterProfile 20,
           RuntimeProfile.sumCounterProfile 30]).info_strings) ∧
     ((RuntimeProfile.lookupCounter
        (RuntimeProfile.merge_isomorphic_profiles
          [RuntimeProfile.avgCounterProfile 100, RuntimeProfile.avgCounterProfile 200,
           RuntimeProfile.avgCounterProfile 300]).counter_map "latency_ns").map
          (fun cp => cp.1.value) = some 200)) := by
  have hgen : ∀ (p0 : StarRocks.RuntimeProfile) (rest : List StarRocks.RuntimeProfile)
      (name : String) (c : Counter) (par : String),
      (p0.counter_map.map (fun e => e.1)).Nodup →
      (name, c, par) ∈ p0.counter_map →
      ((RuntimeProfile.lookupCounter
          (RuntimeProfile.merge_isomorphic_profiles (p0 :: rest)).counter_map name).map
            (fun cp => cp.1.value)
        = some (if c.is_sum
            then (RuntimeProfile.counterValuesAt (p0 :: rest) name).sum
            else (RuntimeProfile.counterValuesAt (p0 :: rest) name).sum
                 / ((RuntimeProfile.counterValuesAt (p0 :: rest) name).length : Int)))
      ∧ (c.skip_min_max = false →
        (MERGED_INFO_PREFIX_MIN ++ name,
           RuntimeProfile.listMin (RuntimeProfile.counterValuesAt (p0 :: rest) name))
          ∈ (RuntimeProfile.merge_isomorphic_profiles (p0 :: rest)).info_strings ∧
        (MERGED_INFO_PREFIX_MAX ++ name,
           RuntimeProfile.listMax (RuntimeProfile.counterValuesAt (p0 :: rest) name))
          ∈ (RuntimeProfile.merge_isomorphic_profiles (p0 :: rest)).info_strings) := by
    intro p0 rest name c par hnd hmem
    obtain ⟨hcm, hinfo⟩ := RuntimeProfile.merge_isomorphic_profiles_proj p0 rest
    have hinv := RuntimeProfile.lookupCounter_of_mem_nodup p0.counter_map hnd
    have hmain := RuntimeProfile.foldl_mergeStep_spec (p0 :: rest) p0.counter_map p0
      hnd hinv (name, c, par) hmem
    constructor
    · rw [hcm]
      have h1 := hmain.1
      rw [show RuntimeProfile.mergeCountersInto p0 (p0 :: rest)
          = p0.counter_map.foldl (RuntimeProfile.mergeStep (p0 :: rest)) p0 from rfl]
      rw [h1]
      simp [Counter.set, Counter.value, RuntimeProfile.merge_isomorphic_counters]
    · intro hskip
      have h2 := hmain.2 hskip
      rw [hinfo]
      exact ⟨h2.1, h2.2⟩
  refine ⟨hgen, ?_, ?_, ?_, ?_⟩
  · exact (hgen (RuntimeProfile.sumCounterProfile 10)
      [RuntimeProfile.sumCounterProfile 20, RuntimeProfile.sumCounterProfile 30]
      "rows" (Counter.mk3 TUnit.UNIT
        (Counter.create_strategy_agg TCounterAggregateType.SUM) 10) ROOT_COUNTER
      (by decide) (by decide)).1.trans (by decide)
  · have h := ((hgen (RuntimeProfile.sumCounterProfile 10)
      [RuntimeProfile.sumCounterProfile 20, RuntimeProfile.sumCounterProfile 30]
      "rows" (Counter.mk3 TUnit.UNIT
        (Counter.create_strategy_agg TCounterAggregateType.SUM) 10) ROOT_COUNTER
      (by decide) (by decide)).2 (by decide)).1
    rwa [show (MERGED_INFO_PREFIX_MIN ++ "rows",
        RuntimeProfile.listMin (RuntimeProfile.counterValuesAt
          [RuntimeProfile.sumCounterProfile 10, RuntimeProfile.sumCounterProfile 20,
           RuntimeProfile.sumCounterProfile 30] "rows"))
      = ("__MIN_OF_rows", (10 : Int)) from by decide] at h
  · have h := ((hgen (RuntimeProfile.sumCounterProfile 10)
      [RuntimeProfile.sumCounterProfile 20, RuntimeProfile.sumCounterProfile 30]
      "rows" (Counter.mk3 TUnit.UNIT
        (Counter.create_strategy_agg TCounterAggregateType.SUM) 10) ROOT_COUNTER
      (by decide) (by decide)).2 (by decide)).2
    rwa [show (MERGED_INFO_PREFIX_MAX ++ "rows",
        RuntimeProfile.listMax (RuntimeProfile.counterValuesAt
          [RuntimeProfile.sumCounterProfile 10, RuntimeProfile.sumCounterProfile 20,
           RuntimeProfile.sumCounterProfile 30] "rows"))
      = ("__MAX_OF_rows", (30 : Int)) from by decide] at h
  · exact (hgen (RuntimeProfile.avgCounterProfile 100)
      [RuntimeProfile.avgCounterProfile 200, RuntimeProfile.avgCounterProfile 300]
      "latency_ns" (Counter.mk3 TUnit.TIME_NS
        (Counter.create_strategy_agg TCounterAggregateType.AVG) 100) ROOT_COUNTER
      (by decide) (by decide)).1.trans (by decide)

/-- C2 witness: the general conjunct applied to one concrete instance list
(a single profile with the SUM counter "rows" = 10), its hypotheses
discharged by computation. -/
theorem merge_isomorphic_profiles_spec_witness :
    ((RuntimeProfile.sumCounterProfile 10).counter_map.map (fun e => e.1)).Nodup ∧
    (("rows", Counter.mk3 TUnit.UNIT
        (Counter.create_strategy_agg TCounterAggregateType.SUM) 10, ROOT_COUNTER)
      ∈ (RuntimeProfile.sumCounterProfile 10).counter_map) ∧
    ((RuntimeProfile.lookupCounter
        (RuntimeProfile.merge_isomorphic_profiles
          [RuntimeProfile.sumCounterProfile 10]).counter_map "rows").map
          (fun cp => cp.1.value) = some 10) :=
  ⟨by decide, by decide,
    ((merge_isomorphic_profiles_spec.1 (RuntimeProfile.sumCounterProfile 10) []
      "rows" (Counter.mk3 TUnit.UNIT
        (Counter.create_strategy_agg TCounterAggregateType.SUM) 10) ROOT_COUNTER
      (by decide) (by decide)).1).trans (by decide)⟩

/-- C6: `compute_time_in_profile` sets each node's local-time-fraction to
(the node's total-time counter value minus the sum of its direct children's
total-time counter values) divided by the root's total-time counter value,
clamped to [0, 1], and to 0 when the root total time is 0 (every node uses
the same root divisor, propagated unchanged to the children); in
particular a root with total-time 100 and one child with total-time 40 and
no grandchildren yields root fraction 0.60 = 3/5 and child fraction
0.40 = 2/5. -/
theorem compute_time_in_profile_spec :
    (∀ (rt : Int) (t : TimeTree),
        (computeTimeGo rt t).local_time_frac
          = max 0 (min 1 (if rt = 0 then 0
              else ((t.total_time - sumChildrenTotal t.children : Int) : ℚ) / (rt : ℚ)))) ∧
    (∀ (rt : Int) (t : TimeTree),
        (computeTimeGo rt t).children = t.children.map (computeTimeGo rt)) ∧
    ((compute_time_in_profile ⟨100, [⟨40, []⟩]⟩).local_time_frac = 3 / 5 ∧
     (compute_time_in_profile ⟨100, [⟨40, []⟩]⟩).children.map
        (fun c => c.local_time_frac) = [2 / 5]) := by
  have h1 : ∀ (rt : Int) (t : TimeTree),
      (computeTimeGo rt t).local_time_frac
        = max 0 (min 1 (if rt = 0 then 0
            else ((t.total_time - sumChildrenTotal t.children : Int) : ℚ) / (rt : ℚ))) := by
    intro rt t
    rw [computeTimeGo.eq_def]
  have h2 : ∀ (rt : Int) (t : TimeTree),
      (computeTimeGo rt t).children = t.children.map (computeTimeGo rt) := by
    intro rt t
    rw [computeTimeGo.eq_def]
    exact List.attach_map_coe t.children (computeTimeGo rt)
  refine ⟨h1, h2, ?_, ?_⟩
  · rw [show compute_time_in_profile ⟨100, [⟨40, []⟩]⟩
        = computeTimeGo 100 ⟨100, [⟨40, []⟩]⟩ from rfl, h1]
    norm_num [sumChildrenTotal]
  · rw [show compute_time_in_profile ⟨100, [⟨40, []⟩]⟩
        = computeTimeGo 100 ⟨100, [⟨40, []⟩]⟩ from rfl, h2]
    simp only [List.map_cons, List.map_nil, h1]
    norm_num [sumChildrenTotal]

end StarRocks
